import Mathlib

/-!
A shallow embedding of the GeoTagging React Native application's core
services (PermissionService, LocationService, CameraService, CameraView
capture flow, App save/delete orchestration), with theorems checking the
natural-language specification against the code.

Conventions of the embedding:
* asynchronous platform calls (permission probes/requests, location fixes,
  the camera shutter) are modelled by passing their outcome in as an
  explicit argument of type `Except String _` (an `Except.error` models a
  rejected promise / thrown error);
* the on-device documents directory is a list of (file name, file content)
  pairs; writing a file replaces any file of the same name;
* file contents are a sum: opaque image bytes (`JSON.parse` fails on
  them), a serialized metadata record (`JSON.parse` succeeds and yields
  the record), or corrupt text (`JSON.parse` fails);
* geographic coordinates are carried opaquely (no arithmetic is performed
  on them anywhere in the modelled code), so they are embedded as `Int`;
  timestamps are epoch milliseconds embedded as `Nat`.
-/

namespace GeoTagging

/-- src/types/index.ts `LocationData`. -/
structure LocationData where
  latitude : Int
  longitude : Int
  altitude : Option Int
  accuracy : Option Int
  timestamp : Nat
deriving DecidableEq

/-- src/types/index.ts `ImageMetadata`. -/
structure ImageMetadata where
  uri : String
  width : Nat
  height : Nat
  fileSize : Option Nat
  timestamp : Nat
  location : Option LocationData
  exifData : Option String
deriving DecidableEq

/-- src/types/index.ts `CameraPermission`. -/
structure CameraPermission where
  camera : Bool
  location : Bool
deriving DecidableEq

/-- The record written by `CameraService.saveImageWithMetadata`:
`{ ...imageMetadata, path, savedAt }`. -/
structure SavedMetadata extends ImageMetadata where
  path : String
  savedAt : Nat
deriving DecidableEq

/-! ## PermissionService (src/services/PermissionService.ts)

`react-native-permissions` results: UNAVAILABLE / DENIED / LIMITED /
GRANTED / BLOCKED. -/

inductive PermResult where
  | unavailable
  | denied
  | limited
  | granted
  | blocked
deriving DecidableEq

/-- The calls a flow makes into the platform APIs, recorded as a trace. -/
inductive PlatformCall where
  | checkCamera
  | checkLocation
  | requestCamera
  | requestLocation
  | requestPhotoLibrary
  | locIsEnabled
  | locGetCurrent
  | locStartWatch
deriving DecidableEq

/-- `result === RESULTS.GRANTED`. -/
def resultIsGranted : PermResult → Bool
  | .granted => true
  | _ => false

/-- `PermissionService.checkCameraPermission`: `check(permission)` and
compare with GRANTED; a thrown error is caught and mapped to `false`. -/
def checkCameraPermission (probe : Except String PermResult) : Bool :=
  match probe with
  | .ok result => resultIsGranted result
  | .error _ => false

/-- `PermissionService.checkLocationPermission`: same shape as the camera
probe. -/
def checkLocationPermission (probe : Except String PermResult) : Bool :=
  match probe with
  | .ok result => resultIsGranted result
  | .error _ => false

/-- `PermissionService.arePermissionsGranted`: probes both capabilities
(without requesting) and returns both outcomes together. -/
def arePermissionsGranted (cameraProbe locationProbe : Except String PermResult) :
    CameraPermission :=
  { camera := checkCameraPermission cameraProbe
    location := checkLocationPermission locationProbe }

/-- Platform calls made by `checkCameraPermission`. -/
def checkCameraPermissionCalls : List PlatformCall := [.checkCamera]

/-- Platform calls made by `checkLocationPermission`. -/
def checkLocationPermissionCalls : List PlatformCall := [.checkLocation]

/-- Platform calls made by `arePermissionsGranted`. -/
def arePermissionsGrantedCalls : List PlatformCall :=
  checkCameraPermissionCalls ++ checkLocationPermissionCalls

/-- Whether a platform call is a permission request (may show an OS
prompt), as opposed to a read-only check. -/
def isRequestCall : PlatformCall → Bool
  | .requestCamera => true
  | .requestLocation => true
  | .requestPhotoLibrary => true
  | _ => false

/-- `PermissionService.requestCameraPermission`: `request(permission)`;
GRANTED maps to true, DENIED and BLOCKED show an alert and map to false,
anything else (including a thrown error, which is caught) maps to false. -/
def requestCameraPermission (req : Except String PermResult) : Bool :=
  match req with
  | .ok result => resultIsGranted result
  | .error _ => false

/-- `PermissionService.requestLocationPermission`: same shape. -/
def requestLocationPermission (req : Except String PermResult) : Bool :=
  match req with
  | .ok result => resultIsGranted result
  | .error _ => false

/-- `PermissionService.checkAllPermissions`: requests camera, then
location, then photo library, and returns the camera/location pair (the
photo-library outcome is computed but not returned). -/
def checkAllPermissions (camReq locReq : Except String PermResult)
    (_photoLibraryReq : Except String PermResult) : CameraPermission :=
  { camera := requestCameraPermission camReq
    location := requestLocationPermission locReq }

/-- Platform calls made by `checkAllPermissions`, in order. -/
def checkAllPermissionsCalls : List PlatformCall :=
  [.requestCamera, .requestLocation, .requestPhotoLibrary]

/-! ## CameraService.addLocationToImage -/

/-- `CameraService.addLocationToImage`: `{ ...imageMetadata, location }` —
a fresh object with every field of the input and `location` replaced. -/
def addLocationToImage (imageMetadata : ImageMetadata) (location : LocationData) :
    ImageMetadata :=
  { imageMetadata with location := some location }

/-! ## LocationService (src/services/LocationService.ts)

The OS geolocation layer (`@react-native-community/geolocation`) is
modelled as a counter allocating fresh watch ids plus the list of
currently active OS-level watch subscriptions. -/

/-- State of the platform geolocation API: the next watch id it will
allocate, and the ids of the OS-level watch subscriptions currently
running. -/
structure GeolocationState where
  nextWatchId : Nat
  activeWatches : List Nat
deriving DecidableEq

/-- State of the `LocationService` singleton: its private
`watchId: number | null` field. -/
structure LocationServiceState where
  watchId : Option Nat
deriving DecidableEq

/-- `Geolocation.watchPosition`: starts a new OS-level watch and returns
its id. -/
def watchPosition (os : GeolocationState) : Nat × GeolocationState :=
  (os.nextWatchId,
    { nextWatchId := os.nextWatchId + 1
      activeWatches := os.nextWatchId :: os.activeWatches })

/-- `Geolocation.clearWatch(id)`: stops the OS-level watch with that id. -/
def clearWatch (os : GeolocationState) (id : Nat) : GeolocationState :=
  { os with activeWatches := os.activeWatches.filter (fun i => i != id) }

/-- `LocationService.watchLocation`: `this.watchId =
Geolocation.watchPosition(...)` — it overwrites the stored handle and
returns the new id.  Note that the code does not call `clearWatch` on a
previously stored handle. -/
def watchLocation (_svc : LocationServiceState) (os : GeolocationState) :
    Nat × LocationServiceState × GeolocationState :=
  let r := watchPosition os
  (r.1, { watchId := some r.1 }, r.2)

/-- `LocationService.stopWatchingLocation`: if a handle is stored, clear
that watch and null the handle; otherwise do nothing. -/
def stopWatchingLocation (svc : LocationServiceState) (os : GeolocationState) :
    LocationServiceState × GeolocationState :=
  match svc.watchId with
  | some id => ({ watchId := none }, clearWatch os id)
  | none => (svc, os)

/-- A call sequence against the `LocationService` watch API. -/
inductive LocEvent where
  | watch
  | stop
deriving DecidableEq

/-- Run a sequence of `watchLocation` / `stopWatchingLocation` calls. -/
def runLocEvents (svc : LocationServiceState) (os : GeolocationState) :
    List LocEvent → LocationServiceState × GeolocationState
  | [] => (svc, os)
  | .watch :: rest =>
      let r := watchLocation svc os
      runLocEvents r.2.1 r.2.2 rest
  | .stop :: rest =>
      let r := stopWatchingLocation svc os
      runLocEvents r.1 r.2 rest

/-! ## CameraView capture flow (src/components/CameraView.tsx) -/

/-- Which capability a permission failure names. -/
inductive Capability where
  | camera
  | location
deriving DecidableEq

/-- Outcome of `initializeCamera` as observable by the user/UI. -/
inductive InitOutcome where
  /-- An alert naming the capability was shown and `onClose()` was called;
  the `Camera` component is never mounted. -/
  | closedPermissionDenied (which : Capability)
  /-- "No camera device found" alert, then `onClose()`. -/
  | closedNoDevice
  /-- `setCameraInitialized(true)` was reached: `watching` records whether
  a location watch was started, `currentLocation` the value of the
  `currentLocation` state after initialization. -/
  | initialized (watching : Bool) (currentLocation : Option LocationData)
deriving DecidableEq

/-- Device/location half of `initializeCamera` (after the permission
gate): device availability check, `isLocationEnabled`, initial
`getCurrentLocation` (failure only warns), `watchLocation`. -/
def initializeCameraRest (deviceAvailable locationEnabled : Bool)
    (initialFix : Except String LocationData) (trace : List PlatformCall) :
    InitOutcome × List PlatformCall :=
  if !deviceAvailable then
    (.closedNoDevice, trace)
  else
    let trace := trace ++ [.locIsEnabled]
    if locationEnabled then
      let current : Option LocationData :=
        match initialFix with
        | .ok l => some l
        | .error _ => none
      (.initialized true current, trace ++ [.locGetCurrent, .locStartWatch])
    else
      (.initialized false none, trace)

/-- `CameraView.initializeCamera`: probe both permissions; if either is
not granted, run `checkAllPermissions` (which issues the three platform
requests) and close with an alert naming camera first, else location;
otherwise continue to the device and location setup. -/
def initializeCamera (cameraProbe locationProbe camReq locReq photoReq :
    Except String PermResult) (deviceAvailable locationEnabled : Bool)
    (initialFix : Except String LocationData) :
    InitOutcome × List PlatformCall :=
  let currentPermissions := arePermissionsGranted cameraProbe locationProbe
  let trace := arePermissionsGrantedCalls
  if !currentPermissions.camera || !currentPermissions.location then
    let permissions := checkAllPermissions camReq locReq photoReq
    let trace := trace ++ checkAllPermissionsCalls
    if !permissions.camera then
      (.closedPermissionDenied .camera, trace)
    else if !permissions.location then
      (.closedPermissionDenied .location, trace)
    else
      initializeCameraRest deviceAvailable locationEnabled initialFix trace
  else
    initializeCameraRest deviceAvailable locationEnabled initialFix trace

/-- The result of `camera.current.takePhoto`. -/
structure Photo where
  path : String
  width : Nat
  height : Nat
deriving DecidableEq

/-- Outcome of `CameraView.takePhoto` as observable by the user/UI. -/
inductive TakePhotoResult where
  /-- "Camera not initialized" alert; nothing captured. -/
  | alertNotInitialized
  /-- "Camera permission not granted" alert; nothing captured. -/
  | alertNoPermission
  /-- The shutter threw; "Failed to capture photo" alert. -/
  | alertCaptureFailed (msg : String)
  /-- `onImageCaptured(imageMetadata)` was invoked with this record. -/
  | captured (image : ImageMetadata)
deriving DecidableEq

/-- `CameraView.takePhoto`: guard on `camera.current` and `hasPermission`,
invoke the shutter, and hand `onImageCaptured` a record whose `location`
is `currentLocation || undefined` — the last value held by the
`currentLocation` state, with no freshness check and no fresh
`getCurrentLocation` call at capture time. -/
def takePhoto (cameraMounted hasPermission : Bool)
    (shot : Except String Photo) (currentLocation : Option LocationData)
    (now : Nat) : TakePhotoResult :=
  if !cameraMounted then
    .alertNotInitialized
  else if !hasPermission then
    .alertNoPermission
  else
    match shot with
    | .error e => .alertCaptureFailed e
    | .ok photo =>
        .captured
          { uri := "file://" ++ photo.path
            width := photo.width
            height := photo.height
            fileSize := none
            timestamp := now
            location := currentLocation
            exifData := none }

/-- Modelled from the spec (§4.3 `Tagging`), for comparison with the code:
the fixed three-tier priority — (1) the most recent watch value if its
`observed_at` is within the freshness window, else (2) the fresh
`getCurrent` fix if one arrives in time, else (3) no position. -/
def specTagPriority (now freshnessWindow : Nat)
    (watchLast getCurrentFix : Option LocationData) : Option LocationData :=
  match watchLast with
  | some l => if now - l.timestamp ≤ freshnessWindow then some l else getCurrentFix
  | none => getCurrentFix

/-! ## MediaStore (src/services/CameraService.ts storage methods)

The documents directory is a list of (file name, content) pairs; all
artifacts live flat in `RNFS.DocumentDirectoryPath`, so files are keyed by
their name within it.  Writing replaces any existing file of that name. -/

/-- Content of a stored file.  `JSON.parse` succeeds exactly on serialized
metadata records; raw image bytes (JPEG) and corrupt text are not valid
JSON. -/
inductive FileContent where
  | imageBytes (bytes : Nat)
  | metadataJson (record : SavedMetadata)
  | corruptText (text : String)
deriving DecidableEq

/-- The documents directory: `RNFS.readDir` enumerates exactly these
(name, content) entries. -/
abbrev FileStore := List (String × FileContent)

/-- Content of the file with the given name, if present. -/
def fsLookup (st : FileStore) (name : String) : Option FileContent :=
  match st with
  | [] => none
  | e :: rest => if e.1 == name then some e.2 else fsLookup rest name

/-- `RNFS.exists`. -/
def fsExists (st : FileStore) (name : String) : Bool :=
  (fsLookup st name).isSome

/-- `RNFS.unlink`: remove the file of that name. -/
def fsErase (st : FileStore) (name : String) : FileStore :=
  st.filter (fun e => e.1 != name)

/-- `RNFS.writeFile` / `RNFS.copyFile` destination: (over)write the file
of that name. -/
def fsWrite (st : FileStore) (name : String) (content : FileContent) : FileStore :=
  (name, content) :: fsErase st name

/-- The metadata object `saveImageWithMetadata` serializes:
`{ ...imageMetadata, path: imagePath, savedAt: Date.now() }`. -/
def saveMetadataRecord (imageMetadata : ImageMetadata) (imagePath : String)
    (now : Nat) : SavedMetadata :=
  { toImageMetadata := imageMetadata, path := imagePath, savedAt := now }

/-- `CameraService.saveImageWithMetadata`: copy the image bytes to
`<documents>/<filename>`, then write the metadata record to
`<documents>/<filename>.json`; returns the image path.  `sourceBytes` is
the content read from `imageMetadata.uri` by `RNFS.copyFile`. -/
def saveImageWithMetadata (st : FileStore) (imageMetadata : ImageMetadata)
    (filename : String) (sourceBytes : Nat) (now : Nat) : FileStore × String :=
  let imagePath := filename
  let afterCopy := fsWrite st imagePath (.imageBytes sourceBytes)
  let metadataPath := imagePath ++ ".json"
  let afterMetadata :=
    fsWrite afterCopy metadataPath
      (.metadataJson (saveMetadataRecord imageMetadata imagePath now))
  (afterMetadata, imagePath)

/-- The store as it stands before, between, and after the two sequential
writes of `saveImageWithMetadata` (bytes first, metadata second). -/
def saveStates (st : FileStore) (imageMetadata : ImageMetadata)
    (filename : String) (sourceBytes : Nat) (now : Nat) : List FileStore :=
  let afterCopy := fsWrite st filename (.imageBytes sourceBytes)
  [st, afterCopy,
    (saveImageWithMetadata st imageMetadata filename sourceBytes now).1]

/-- Errors a `deleteImage` call could report. -/
inductive DeleteError where
  | notFound
  | ioError (msg : String)
deriving DecidableEq

/-- `CameraService.deleteImage`: unlink the image file if it exists, then
unlink `<imagePath>.json` if it exists; a missing file is skipped, and the
call reports success regardless. -/
def deleteImage (st : FileStore) (imagePath : String) :
    Except DeleteError FileStore :=
  let metadataPath := imagePath ++ ".json"
  let afterImage := if fsExists st imagePath then fsErase st imagePath else st
  let afterMetadata :=
    if fsExists afterImage metadataPath then fsErase afterImage metadataPath
    else afterImage
  .ok afterMetadata

/-! String predicates used by `loadSavedImages`, modelling JS
`String.prototype.endsWith` and `String.prototype.includes`. -/

/-- Whether `pat` is a prefix of `s` (over characters). -/
def listHasPre : List Char → List Char → Bool
  | [], _ => true
  | _ :: _, [] => false
  | p :: ps, c :: cs => p == c && listHasPre ps cs

/-- Whether `pat` occurs contiguously somewhere in `s`. -/
def listHasSub (pat : List Char) : List Char → Bool
  | [] => listHasPre pat []
  | c :: cs => listHasPre pat (c :: cs) || listHasSub pat cs

/-- JS `s.endsWith(sfx)`. -/
def strEndsWith (s sfx : String) : Bool :=
  listHasPre sfx.data.reverse s.data.reverse

/-- JS `s.includes(pat)`. -/
def strIncludes (s pat : String) : Bool :=
  listHasSub pat.data s.data

/-- `JSON.parse` on a stored file's content, `none` when it throws. -/
def jsonParse : FileContent → Option SavedMetadata
  | .metadataJson record => some record
  | _ => none

/-- The `loadSavedImages` metadata-file filter:
`file.name.endsWith('.json') && !file.name.includes('.json.json')`. -/
def isMetadataFileName (name : String) : Bool :=
  strEndsWith name ".json" && !(strIncludes name ".json.json")

/-- `CameraService.loadSavedImages`: enumerate the directory, keep the
metadata-named files, parse each independently (a parse failure is logged
and skipped), and sort by `(a, b) => b.timestamp - a.timestamp` — most
recent first (JS `Array.prototype.sort` is stable). -/
def loadSavedImages (st : FileStore) : List SavedMetadata :=
  let imageFiles := st.filter (fun file => isMetadataFileName file.1)
  let images := imageFiles.filterMap (fun file => jsonParse file.2)
  images.mergeSort (fun a b => decide (b.timestamp ≤ a.timestamp))

/-! ## Storage-key derivation (App.tsx `handleImageCaptured`) -/

/-- Two-digit zero padding. -/
def pad2 (n : Nat) : String :=
  if n < 10 then "0" ++ toString n else toString n

/-- Three-digit zero padding. -/
def pad3 (n : Nat) : String :=
  if n < 10 then "00" ++ toString n
  else if n < 100 then "0" ++ toString n
  else toString n

/-- Proleptic-Gregorian civil date (year, month, day) from days since
1970-01-01 (Howard Hinnant's `civil_from_days`, non-negative case). -/
def civilFromDays (z0 : Nat) : Nat × Nat × Nat :=
  let z := z0 + 719468
  let era := z / 146097
  let doe := z % 146097
  let yoe := (doe - doe / 1460 + doe / 36524 - doe / 146096) / 365
  let y := yoe + era * 400
  let doy := doe - (365 * yoe + yoe / 4 - yoe / 100)
  let mp := (5 * doy + 2) / 153
  let d := doy - (153 * mp + 2) / 5 + 1
  let m := if mp < 10 then mp + 3 else mp - 9
  (if m ≤ 2 then y + 1 else y, m, d)

/-- JS `new Date(t).toISOString()` for a non-negative epoch-millisecond
timestamp: `YYYY-MM-DDTHH:mm:ss.sssZ`. -/
def toISOString (t : Nat) : String :=
  let days := t / 86400000
  let msOfDay := t % 86400000
  let ymd := civilFromDays days
  let hh := msOfDay / 3600000
  let mi := (msOfDay % 3600000) / 60000
  let ss := (msOfDay % 60000) / 1000
  let ms := msOfDay % 1000
  toString ymd.1 ++ "-" ++ pad2 ymd.2.1 ++ "-" ++ pad2 ymd.2.2 ++ "T" ++
    pad2 hh ++ ":" ++ pad2 mi ++ ":" ++ pad2 ss ++ "." ++ pad3 ms ++ "Z"

/-- App.tsx `handleImageCaptured` storage-key derivation:
`` `geo_image_${new Date().toISOString().replace(/[:.]/g, '-')}.jpg` `` —
a function of the save-time millisecond clock alone. -/
def deriveFilename (nowMs : Nat) : String :=
  let timestamp := String.mk ((toISOString nowMs).data.map
    (fun c => if c = ':' ∨ c = '.' then '-' else c))
  "geo_image_" ++ timestamp ++ ".jpg"

/-! ## Theorems for C8 and C9 -/

/-- C8: the read-only permission probe (`arePermissionsGranted` built from
`checkCameraPermission` / `checkLocationPermission`) never prompts the user
(its platform-call trace contains no request call) and never throws (it is
a total function into `CameraPermission`): a probe error is mapped to
`false` for the affected capability, and the camera and location outcomes
are always returned together as one pair. -/
theorem c8_probe_never_prompts_fails_soft :
    (∀ cameraProbe locationProbe : Except String PermResult,
        arePermissionsGranted cameraProbe locationProbe =
          { camera := checkCameraPermission cameraProbe
            location := checkLocationPermission locationProbe })
    ∧ (∀ e : String, checkCameraPermission (.error e) = false)
    ∧ (∀ e : String, checkLocationPermission (.error e) = false)
    ∧ arePermissionsGrantedCalls.filter isRequestCall = [] := by
  refine ⟨fun _ _ => rfl, fun _ => rfl, fun _ => rfl, rfl⟩

/-- C9: `addLocationToImage` is a pure frame-preserving update: the result
has `location` equal to the given location and every other field equal to
the corresponding field of the input (the input itself is a value and is
not mutated — the TS code builds a fresh object by spread). -/
theorem c9_addLocationToImage_frame :
    ∀ (m : ImageMetadata) (loc : LocationData),
      (addLocationToImage m loc).location = some loc
      ∧ (addLocationToImage m loc).uri = m.uri
      ∧ (addLocationToImage m loc).width = m.width
      ∧ (addLocationToImage m loc).height = m.height
      ∧ (addLocationToImage m loc).fileSize = m.fileSize
      ∧ (addLocationToImage m loc).timestamp = m.timestamp
      ∧ (addLocationToImage m loc).exifData = m.exifData := by
  intro m loc
  exact ⟨rfl, rfl, rfl, rfl, rfl, rfl, rfl⟩

/-! ## Theorems for C1 (tagging policy) -/

/-- A watch-delivered fix observed at t = 0 — stale by t = 100000 under a
10 s freshness window. -/
def staleWatchFix : LocationData :=
  { latitude := 1, longitude := 2, altitude := none, accuracy := none, timestamp := 0 }

/-- A fix a fresh `getCurrent` call would deliver at t = 99000. -/
def freshCurrentFix : LocationData :=
  { latitude := 3, longitude := 4, altitude := none, accuracy := none, timestamp := 99000 }

/-- C1 is false on the code: at the moment tagging begins with a
watch-delivered value far outside the 10 s freshness window (observed at
t = 0, captured at t = 100000) and a fresh `getCurrent` fix available, the
saved record's position is the stale watched value — the code attaches
`currentLocation` unconditionally — whereas the claimed three-tier
priority attaches the fresh `getCurrent` fix. -/
theorem c1_counterexample :
    takePhoto true true (.ok { path := "photo.jpg", width := 100, height := 80 })
        (some staleWatchFix) 100000
      = .captured
          { uri := "file://photo.jpg", width := 100, height := 80, fileSize := none
            timestamp := 100000, location := some staleWatchFix, exifData := none }
    ∧ specTagPriority 100000 10000 (some staleWatchFix) (some freshCurrentFix)
      = some freshCurrentFix
    ∧ (some staleWatchFix : Option LocationData) ≠ some freshCurrentFix := by
  refine ⟨rfl, by decide, by decide⟩

/-- C1 (amended): at the moment tagging begins the position attached to
the saved image is the last value held by `currentLocation` (the initial
fix or the latest watch delivery), with no freshness-window check and no
fresh `getCurrent` call at capture time; when no value has been delivered
(`currentLocation` empty) the image is still captured and handed to the
save path with position absent rather than the capture failing. -/
theorem c1_amended_attaches_last_delivered (photo : Photo)
    (currentLocation : Option LocationData) (now : Nat) :
    takePhoto true true (.ok photo) currentLocation now
      = .captured
          { uri := "file://" ++ photo.path, width := photo.width
            height := photo.height, fileSize := none, timestamp := now
            location := currentLocation, exifData := none } := rfl

/-! ## Theorems for C6 (watch uniqueness) -/

/-- C6 is false on the code: from a quiescent initial state, calling
`watchLocation` twice with no intervening stop leaves two OS-level watch
subscriptions active — `watchLocation` overwrites the stored handle
without clearing the previous watch. -/
theorem c6_counterexample :
    ((runLocEvents { watchId := none } { nextWatchId := 0, activeWatches := [] }
        [.watch, .watch]).2.activeWatches).length = 2 := by decide

/-- C6 (amended): starting a second watch while one is active does not
stop the first: both OS-level subscriptions remain active (the first is
leaked), only the most recent handle is tracked by the service, and a
subsequent `stopWatchingLocation` stops only that most recent watch,
leaving the leaked first watch running. -/
theorem c6_amended_second_watch_leaks_first (svc : LocationServiceState)
    (os : GeolocationState)
    (hfresh : os.activeWatches.all (fun i => i < os.nextWatchId) = true) :
    (runLocEvents svc os [.watch, .watch]).2.activeWatches
        = (os.nextWatchId + 1) :: os.nextWatchId :: os.activeWatches
    ∧ (runLocEvents svc os [.watch, .watch]).1.watchId = some (os.nextWatchId + 1)
    ∧ (runLocEvents svc os [.watch, .watch, .stop]).2.activeWatches
        = os.nextWatchId :: os.activeWatches := by
  have hA : os.activeWatches.filter (fun i => i != os.nextWatchId + 1)
      = os.activeWatches := by
    apply List.filter_eq_self.mpr
    intro a ha
    have h := List.all_eq_true.mp hfresh a ha
    simp only [decide_eq_true_eq] at h
    simp only [bne_iff_ne, ne_eq]
    omega
  refine ⟨rfl, rfl, ?_⟩
  simp only [runLocEvents, watchLocation, watchPosition, stopWatchingLocation,
    clearWatch, List.filter_cons]
  simp [hA]

/-- Witness for `c6_amended_second_watch_leaks_first` at the quiescent
initial state. -/
theorem c6_amended_witness :
    (runLocEvents { watchId := none } { nextWatchId := 0, activeWatches := [] }
        [.watch, .watch]).2.activeWatches = [1, 0]
    ∧ (runLocEvents { watchId := none } { nextWatchId := 0, activeWatches := [] }
        [.watch, .watch]).1.watchId = some 1
    ∧ (runLocEvents { watchId := none } { nextWatchId := 0, activeWatches := [] }
        [.watch, .watch, .stop]).2.activeWatches = [0] :=
  c6_amended_second_watch_leaks_first { watchId := none }
    { nextWatchId := 0, activeWatches := [] } (by decide)

/-! ## Theorems for C7 (capture with camera denied, location granted) -/

/-- C7 is false on the code: with the permission state camera = denied,
location = granted (and the camera request still not granted), the flow
does close with an alert naming the camera capability and never mounts the
camera device, but its platform-call trace contains a location permission
request — `checkAllPermissions` re-requests every capability before the
camera denial is acted on. -/
theorem c7_counterexample :
    (initializeCamera (.ok .denied) (.ok .granted) (.ok .denied) (.ok .granted)
        (.ok .granted) true true (.error "no fix")).1
      = .closedPermissionDenied .camera
    ∧ (initializeCamera (.ok .denied) (.ok .granted) (.ok .denied) (.ok .granted)
        (.ok .granted) true true (.error "no fix")).2.contains .requestLocation
      = true := by decide

/-- C7 (amended): whenever the camera permission probe reports not granted
and the subsequent camera request is not granted, `initializeCamera`
closes with a failure naming the camera capability and its platform-call
trace is exactly the two read-only probes followed by the three permission
requests — so the camera device is never activated and no location
service call is made, but the location permission request is invoked
(even when location is already granted). -/
theorem c7_amended_closes_on_camera_but_requests_location
    (cameraProbe locationProbe camReq locReq photoReq : Except String PermResult)
    (deviceAvailable locationEnabled : Bool)
    (initialFix : Except String LocationData)
    (hprobe : checkCameraPermission cameraProbe = false)
    (hreq : requestCameraPermission camReq = false) :
    initializeCamera cameraProbe locationProbe camReq locReq photoReq
        deviceAvailable locationEnabled initialFix
      = (.closedPermissionDenied .camera,
         [.checkCamera, .checkLocation, .requestCamera, .requestLocation,
          .requestPhotoLibrary]) := by
  simp [initializeCamera, arePermissionsGranted, checkAllPermissions, hprobe, hreq,
    arePermissionsGrantedCalls, checkCameraPermissionCalls,
    checkLocationPermissionCalls, checkAllPermissionsCalls]

/-- Witness for `c7_amended_closes_on_camera_but_requests_location` with a
blocked camera and granted location. -/
theorem c7_amended_witness :
    initializeCamera (.ok .blocked) (.ok .granted) (.ok .blocked) (.ok .granted)
        (.ok .granted) false false (.error "e")
      = (.closedPermissionDenied .camera,
         [.checkCamera, .checkLocation, .requestCamera, .requestLocation,
          .requestPhotoLibrary]) :=
  c7_amended_closes_on_camera_but_requests_location _ _ _ _ _ _ _ _ rfl rfl

/-! ## File-store lemmas -/

theorem fsLookup_eq_none_iff (st : FileStore) (n : String) :
    fsLookup st n = none ↔ ∀ e ∈ st, e.1 ≠ n := by
  induction st with
  | nil => simp [fsLookup]
  | cons e rest ih =>
    by_cases h : e.1 = n
    · simp [fsLookup, h]
    · simp [fsLookup, h, ih]

theorem fsErase_of_not_exists (st : FileStore) (n : String)
    (h : fsExists st n = false) : fsErase st n = st := by
  have hnone : fsLookup st n = none := by
    cases hl : fsLookup st n with
    | none => rfl
    | some c => rw [fsExists, hl] at h; simp at h
  apply List.filter_eq_self.mpr
  intro e he
  have := (fsLookup_eq_none_iff st n).mp hnone e he
  simpa [bne_iff_ne] using this

theorem fsErase_fsErase_self (st : FileStore) (n : String) :
    fsErase (fsErase st n) n = fsErase st n := by
  simp [fsErase, List.filter_filter]

theorem fsErase_comm (st : FileStore) (n n' : String) :
    fsErase (fsErase st n) n' = fsErase (fsErase st n') n := by
  simp [fsErase, List.filter_filter, Bool.and_comm]

theorem fsErase_cons_ne (st : FileStore) (n₀ n : String) (c : FileContent)
    (h : n₀ ≠ n) : fsErase ((n₀, c) :: st) n = (n₀, c) :: fsErase st n := by
  simp [fsErase, h]

theorem fsErase_fsWrite_self (st : FileStore) (n : String) (c : FileContent) :
    fsErase (fsWrite st n c) n = fsErase st n := by
  simp [fsWrite, fsErase, List.filter_filter]

theorem fsErase_fsWrite_ne (st : FileStore) (n n' : String) (c : FileContent)
    (h : n ≠ n') : fsErase (fsWrite st n c) n' = fsWrite (fsErase st n') n c := by
  simp [fsWrite, fsErase, List.filter_filter, h, Bool.and_comm]

theorem fsLookup_fsErase_self (st : FileStore) (n : String) :
    fsLookup (fsErase st n) n = none := by
  induction st with
  | nil => rfl
  | cons e rest ih =>
    by_cases h : e.1 = n
    · simpa [fsErase, fsLookup, h] using ih
    · simpa [fsErase, fsLookup, h] using ih

theorem fsLookup_fsErase_ne (st : FileStore) (n n' : String) (h : n' ≠ n) :
    fsLookup (fsErase st n) n' = fsLookup st n' := by
  induction st with
  | nil => rfl
  | cons e rest ih =>
    simp only [fsErase] at ih
    by_cases he : e.1 = n
    · have h1 : (e.1 != n) = false := by simp [he]
      have h2 : (e.1 == n') = false := by
        simp only [beq_eq_false_iff_ne, ne_eq, he]
        exact fun hx => h hx.symm
      simp [fsErase, List.filter_cons, h1, fsLookup, h2, ih]
    · have h1 : (e.1 != n) = true := by simp [he]
      simp [fsErase, List.filter_cons, h1, fsLookup, ih]

theorem fsLookup_fsWrite_self (st : FileStore) (n : String) (c : FileContent) :
    fsLookup (fsWrite st n c) n = some c := by
  simp [fsWrite, fsLookup]

theorem fsLookup_fsWrite_ne (st : FileStore) (n n' : String) (c : FileContent)
    (h : n' ≠ n) : fsLookup (fsWrite st n c) n' = fsLookup st n' := by
  have hh : n ≠ n' := fun hx => h hx.symm
  simp [fsWrite, fsLookup, hh, fsLookup_fsErase_ne st n n' h]

theorem fsExists_fsWrite_of (st : FileStore) (n n' : String) (c : FileContent)
    (h : fsExists st n' = true) : fsExists (fsWrite st n c) n' = true := by
  by_cases he : n' = n
  · subst he; simp [fsExists, fsLookup_fsWrite_self]
  · rw [fsExists, fsLookup_fsWrite_ne st n n' c he]; exact h

theorem string_ne_append_json (s : String) : s ≠ s ++ ".json" := by
  intro h
  have hlen := congrArg String.length h
  rw [String.length_append] at hlen
  have h5 : (".json" : String).length = 5 := rfl
  omega

theorem string_append_cancel (a b sfx : String) (h : a ++ sfx = b ++ sfx) :
    a = b := by
  apply String.ext
  have hd := congrArg String.data h
  rw [String.data_append, String.data_append] at hd
  exact List.append_cancel_right hd

/-! ## String-predicate lemmas -/

theorem listHasPre_iff (pat s : List Char) :
    listHasPre pat s = true ↔ ∃ r, s = pat ++ r := by
  induction pat generalizing s with
  | nil => simp [listHasPre]
  | cons p ps ih =>
    cases s with
    | nil => simp [listHasPre]
    | cons c cs =>
      simp only [listHasPre, Bool.and_eq_true, beq_iff_eq, ih, List.cons_append,
        List.cons_eq_cons]
      constructor
      · rintro ⟨rfl, r, rfl⟩; exact ⟨r, rfl, rfl⟩
      · rintro ⟨r, rfl, rfl⟩; exact ⟨rfl, r, rfl⟩

theorem listHasSub_of_pre (pat s : List Char) (h : listHasPre pat s = true) :
    listHasSub pat s = true := by
  cases s with
  | nil => simpa [listHasSub] using h
  | cons c cs => simp [listHasSub, h]

theorem listHasSub_append_left (pat pre s : List Char)
    (h : listHasSub pat s = true) : listHasSub pat (pre ++ s) = true := by
  induction pre with
  | nil => simpa using h
  | cons c cs ih => simp [listHasSub, ih]

theorem strIncludes_append_json (k : String) (h : strEndsWith k ".json" = true) :
    strIncludes (k ++ ".json") ".json.json" = true := by
  obtain ⟨r, hr⟩ := (listHasPre_iff _ _).mp h
  have hk : k.data = r.reverse ++ (".json" : String).data := by
    have hrev := congrArg List.reverse hr
    simpa [List.reverse_append] using hrev
  rw [strIncludes, String.data_append, hk, List.append_assoc]
  apply listHasSub_append_left
  apply listHasSub_of_pre
  decide

/-! ## Theorems for C2 (list: independent parsing, skip failures, sort) -/

/-- C2: for every state of the store, `loadSavedImages` parses each
metadata-named record independently and skips (does not abort on) records
that fail to parse — its output is a permutation of exactly the
successfully parsed records — and the output is ordered by capture
timestamp descending, most recent first. -/
theorem c2_list_skips_failures_sorts_desc :
    ∀ st : FileStore,
      (loadSavedImages st).Perm
          ((st.filter (fun file => isMetadataFileName file.1)).filterMap
            (fun file => jsonParse file.2))
      ∧ (loadSavedImages st).Pairwise
          (fun a b => b.timestamp ≤ a.timestamp) := by
  intro st
  constructor
  · exact List.mergeSort_perm _ _
  · have htrans : ∀ a b c : SavedMetadata,
        decide (b.timestamp ≤ a.timestamp) = true →
        decide (c.timestamp ≤ b.timestamp) = true →
        decide (c.timestamp ≤ a.timestamp) = true := by
      intro a b c hab hbc
      simp only [decide_eq_true_eq] at *
      omega
    have htotal : ∀ a b : SavedMetadata,
        (decide (b.timestamp ≤ a.timestamp)
          || decide (a.timestamp ≤ b.timestamp)) = true := by
      intro a b
      simp [Nat.le_total]
    have hs := List.sorted_mergeSort htrans htotal
      ((st.filter (fun file => isMetadataFileName file.1)).filterMap
        (fun file => jsonParse file.2))
    exact hs.imp (by intro a b hh; simpa using hh)

/-! ## Theorems for C3 (delete semantics) -/

/-- C3 is false on the code: deleting a record of which neither the image
file nor the metadata file exists (here: any path against the empty store,
as after a second delete of the same record) succeeds silently — the call
never fails with `NotFound`. -/
theorem c3_counterexample :
    deleteImage ([] : FileStore) "geo_image_x.jpg" = .ok []
    ∧ deleteImage ([] : FileStore) "geo_image_x.jpg" ≠ .error .notFound := by
  refine ⟨rfl, ?_⟩
  intro hcontra
  rw [show deleteImage ([] : FileStore) "geo_image_x.jpg" = .ok [] from rfl]
    at hcontra
  exact Except.noConfusion hcontra

/-- C3 (amended): `deleteImage` removes both the image file and the
metadata file, each removal is independently idempotent (a missing file is
skipped, not an error), and the overall call succeeds even when neither
part existed — in particular deleting the same record twice succeeds
silently the second time (it does not crash, and it does not report
`NotFound`). -/
theorem c3_amended_delete_idempotent_never_fails (st : FileStore)
    (imagePath : String) :
    deleteImage st imagePath
      = .ok (fsErase (fsErase st imagePath) (imagePath ++ ".json"))
    ∧ fsExists (fsErase (fsErase st imagePath) (imagePath ++ ".json"))
        imagePath = false
    ∧ fsExists (fsErase (fsErase st imagePath) (imagePath ++ ".json"))
        (imagePath ++ ".json") = false
    ∧ deleteImage (fsErase (fsErase st imagePath) (imagePath ++ ".json"))
        imagePath
      = .ok (fsErase (fsErase st imagePath) (imagePath ++ ".json")) := by
  have hne : imagePath ≠ imagePath ++ ".json" := string_ne_append_json imagePath
  have h2 : fsExists (fsErase (fsErase st imagePath) (imagePath ++ ".json"))
      imagePath = false := by
    rw [fsExists, fsLookup_fsErase_ne _ _ _ hne, fsLookup_fsErase_self]
    rfl
  have h3 : fsExists (fsErase (fsErase st imagePath) (imagePath ++ ".json"))
      (imagePath ++ ".json") = false := by
    rw [fsExists, fsLookup_fsErase_self]
    rfl
  refine ⟨?_, h2, h3, ?_⟩
  · simp only [deleteImage]
    by_cases hi : fsExists st imagePath
    · simp only [hi, if_true]
      by_cases hm : fsExists (fsErase st imagePath) (imagePath ++ ".json")
      · simp [hm]
      · have hm' : fsExists (fsErase st imagePath) (imagePath ++ ".json") = false :=
          Bool.not_eq_true _ ▸ by simpa using hm
        simp [hm', fsErase_of_not_exists _ _ hm']
    · have hi' : fsExists st imagePath = false := by simpa using hi
      rw [fsErase_of_not_exists st imagePath hi']
      simp only [hi', Bool.false_eq_true, if_false]
      by_cases hm : fsExists st (imagePath ++ ".json")
      · simp [hm]
      · have hm' : fsExists st (imagePath ++ ".json") = false := by simpa using hm
        simp [hm', fsErase_of_not_exists _ _ hm']
  · simp [deleteImage, h2, h3]

/-! ## Theorems for C4 (bytes-then-metadata write order) -/

/-- The pairing invariant: every metadata artifact present in the store
has its image payload present. -/
def metadataImagePaired (st : FileStore) : Prop :=
  ∀ n record, fsLookup st (n ++ ".json") = some (.metadataJson record) →
    fsExists st n = true

/-- C4: `saveImageWithMetadata` copies the image bytes strictly before
writing the metadata record, so every intermediate store of a save —
initial, after the byte copy, after the metadata write — satisfies the
pairing invariant whenever the initial store did: at no point is a
metadata record present while its image payload is absent. -/
theorem c4_save_states_never_metadata_without_image (st : FileStore)
    (imageMetadata : ImageMetadata) (filename : String) (sourceBytes now : Nat)
    (hst : metadataImagePaired st) :
    ∀ s ∈ saveStates st imageMetadata filename sourceBytes now,
      metadataImagePaired s := by
  have hcopy : metadataImagePaired
      (fsWrite st filename (.imageBytes sourceBytes)) := by
    intro n record hlook
    by_cases h : n ++ ".json" = filename
    · rw [h, fsLookup_fsWrite_self] at hlook
      exact absurd hlook (by simp)
    · rw [fsLookup_fsWrite_ne st filename (n ++ ".json") _ h] at hlook
      exact fsExists_fsWrite_of _ _ _ _ (hst n record hlook)
  have hfinal : metadataImagePaired
      (saveImageWithMetadata st imageMetadata filename sourceBytes now).1 := by
    intro n record hlook
    rw [show (saveImageWithMetadata st imageMetadata filename sourceBytes now).1
          = fsWrite (fsWrite st filename (.imageBytes sourceBytes))
              (filename ++ ".json")
              (.metadataJson (saveMetadataRecord imageMetadata filename now))
        from rfl] at hlook ⊢
    by_cases h : n ++ ".json" = filename ++ ".json"
    · have hn : n = filename := string_append_cancel _ _ _ h
      subst hn
      apply fsExists_fsWrite_of
      rw [fsExists, fsLookup_fsWrite_self]
      rfl
    · rw [fsLookup_fsWrite_ne _ _ _ _ h] at hlook
      exact fsExists_fsWrite_of _ _ _ _ (hcopy n record hlook)
  intro s hs
  simp only [saveStates, List.mem_cons, List.not_mem_nil, or_false] at hs
  rcases hs with rfl | rfl | rfl
  · exact hst
  · exact hcopy
  · exact hfinal

/-- Witness for `c4_save_states_never_metadata_without_image`: the
mid-save state of a save against the empty store. -/
theorem c4_witness :
    metadataImagePaired
      (fsWrite ([] : FileStore) "geo_image_w.jpg" (.imageBytes 0)) := by
  have hempty : metadataImagePaired ([] : FileStore) := by
    intro n record hlook
    exact absurd hlook (by simp [fsLookup])
  exact c4_save_states_never_metadata_without_image []
    ⟨"file:///cache/w.jpg", 1, 1, none, 0, none, none⟩ "geo_image_w.jpg" 0 5
    hempty _ (by simp [saveStates])

/-! ## Theorems for C5 (storage-key derivation, same-millisecond saves) -/

theorem save_same_key_overwrites (st : FileStore) (m1 m2 : ImageMetadata)
    (k : String) (b1 b2 n1 n2 : Nat) :
    (saveImageWithMetadata (saveImageWithMetadata st m1 k b1 n1).1
        m2 k b2 n2).1
      = (saveImageWithMetadata st m2 k b2 n2).1 := by
  have hne : k ≠ k ++ ".json" := string_ne_append_json k
  have hne' : k ++ ".json" ≠ k := fun hx => hne hx.symm
  show fsWrite (fsWrite (fsWrite (fsWrite st k (.imageBytes b1)) (k ++ ".json")
      (.metadataJson (saveMetadataRecord m1 k n1))) k (.imageBytes b2))
      (k ++ ".json") (.metadataJson (saveMetadataRecord m2 k n2))
    = fsWrite (fsWrite st k (.imageBytes b2)) (k ++ ".json")
      (.metadataJson (saveMetadataRecord m2 k n2))
  rw [show fsWrite (fsWrite (fsWrite st k (.imageBytes b1)) (k ++ ".json")
        (.metadataJson (saveMetadataRecord m1 k n1))) k (.imageBytes b2)
      = (k, .imageBytes b2) :: fsErase (fsWrite (fsWrite st k (.imageBytes b1))
        (k ++ ".json") (.metadataJson (saveMetadataRecord m1 k n1))) k from rfl]
  rw [fsErase_fsWrite_ne _ _ _ _ hne', fsErase_fsWrite_self]
  show (k ++ ".json", FileContent.metadataJson (saveMetadataRecord m2 k n2)) ::
      fsErase ((k, .imageBytes b2) :: fsWrite (fsErase st k) (k ++ ".json")
        (.metadataJson (saveMetadataRecord m1 k n1))) (k ++ ".json")
    = fsWrite (fsWrite st k (.imageBytes b2)) (k ++ ".json")
      (.metadataJson (saveMetadataRecord m2 k n2))
  rw [fsErase_cons_ne _ _ _ _ hne, fsErase_fsWrite_self]
  show _ = (k ++ ".json", FileContent.metadataJson (saveMetadataRecord m2 k n2))
      :: fsErase ((k, .imageBytes b2) :: fsErase st k) (k ++ ".json")
  rw [fsErase_cons_ne _ _ _ _ hne]

/-- Capture record for the first of two same-millisecond captures. -/
def sameMsImage1 : ImageMetadata :=
  { uri := "file:///cache/shot1.jpg", width := 10, height := 10
    fileSize := none, timestamp := 1700000000000, location := none
    exifData := none }

/-- Capture record for the second of two same-millisecond captures. -/
def sameMsImage2 : ImageMetadata :=
  { uri := "file:///cache/shot2.jpg", width := 12, height := 12
    fileSize := none, timestamp := 1700000000000, location := none
    exifData := none }

/-- C5 is false on the code: the derived storage key is a function of the
save-time millisecond alone (no monotonic disambiguator), so two save
calls in the same millisecond (t = 1700000000000) derive the same key, and
after both saves the store is identical to the store after the second save
alone — two files (one image artifact, one metadata artifact), a single
listable record, not two. -/
theorem c5_counterexample :
    deriveFilename 1700000000000 = "geo_image_2023-11-14T22-13-20-000Z.jpg"
    ∧ (saveImageWithMetadata
        (saveImageWithMetadata [] sameMsImage1
          (deriveFilename 1700000000000) 1 1700000000000).1
        sameMsImage2 (deriveFilename 1700000000000) 2 1700000000000).1
      = (saveImageWithMetadata [] sameMsImage2
          (deriveFilename 1700000000000) 2 1700000000000).1
    ∧ ((saveImageWithMetadata [] sameMsImage2
          (deriveFilename 1700000000000) 2 1700000000000).1).length = 2 := by
  refine ⟨by decide, save_same_key_overwrites [] sameMsImage1 sameMsImage2 _ 1 2
    1700000000000 1700000000000, by decide⟩

/-- C5 (amended): the storage key is derived from the save-time
millisecond alone, so two save calls in the same millisecond derive the
same key and the second save overwrites the first's image and metadata
artifacts entirely — the two saves produce one listable record, not two
distinct ones. -/
theorem c5_amended_same_millisecond_collides (st : FileStore)
    (m1 m2 : ImageMetadata) (t b1 b2 now1 now2 : Nat) :
    (saveImageWithMetadata (saveImageWithMetadata st m1 (deriveFilename t) b1
        now1).1 m2 (deriveFilename t) b2 now2).1
      = (saveImageWithMetadata st m2 (deriveFilename t) b2 now2).1 :=
  save_same_key_overwrites st m1 m2 (deriveFilename t) b1 b2 now1 now2

/-! ## Theorems for C10 (metadata-name filter; `.json`-keyed records) -/

/-- C10: `loadSavedImages` draws records only from files whose name ends
with `.json` and does not contain `.json.json`, and only from files whose
content actually parses as a metadata record — so image-byte files are
never returned as records; and a record saved under a storage key that
itself ends in `.json` (whose metadata artifact is named
`<key>.json.json`) is invisible to every subsequent list call: listing the
store after such a save returns exactly what listing before it did. -/
theorem c10_json_filter_and_json_key_invisible :
    (∀ (st : FileStore) (r : SavedMetadata), r ∈ loadSavedImages st →
        ∃ name, (name, FileContent.metadataJson r) ∈ st
          ∧ isMetadataFileName name = true)
    ∧ (∀ (st : FileStore) (imageMetadata : ImageMetadata) (k : String)
        (b now : Nat),
        strEndsWith k ".json" = true → fsExists st k = false →
        fsExists st (k ++ ".json") = false →
        loadSavedImages (saveImageWithMetadata st imageMetadata k b now).1
          = loadSavedImages st) := by
  constructor
  · intro st r hr
    simp only [loadSavedImages] at hr
    rw [List.mem_mergeSort, List.mem_filterMap] at hr
    obtain ⟨file, hfile, hparse⟩ := hr
    rw [List.mem_filter] at hfile
    obtain ⟨hmem, hpred⟩ := hfile
    obtain ⟨name, content⟩ := file
    cases content with
    | imageBytes b => exact absurd hparse (by simp [jsonParse])
    | corruptText s => exact absurd hparse (by simp [jsonParse])
    | metadataJson record =>
        have : record = r := by simpa [jsonParse] using hparse
        subst this
        exact ⟨name, hmem, hpred⟩
  · intro st imageMetadata k b now hend hfk hfkj
    have hne : k ≠ k ++ ".json" := string_ne_append_json k
    have hstore : (saveImageWithMetadata st imageMetadata k b now).1
        = (k ++ ".json",
            FileContent.metadataJson (saveMetadataRecord imageMetadata k now))
          :: (k, FileContent.imageBytes b) :: st := by
      show fsWrite (fsWrite st k (.imageBytes b)) (k ++ ".json")
          (.metadataJson (saveMetadataRecord imageMetadata k now)) = _
      rw [show fsWrite st k (.imageBytes b)
            = (k, FileContent.imageBytes b) :: fsErase st k from rfl]
      rw [fsErase_of_not_exists st k hfk]
      show (k ++ ".json",
          FileContent.metadataJson (saveMetadataRecord imageMetadata k now))
        :: fsErase ((k, FileContent.imageBytes b) :: st) (k ++ ".json") = _
      rw [fsErase_cons_ne _ _ _ _ hne, fsErase_of_not_exists st (k ++ ".json") hfkj]
    have hp1 : isMetadataFileName (k ++ ".json") = false := by
      rw [isMetadataFileName, strIncludes_append_json k hend]
      simp
    rw [hstore]
    simp only [loadSavedImages, List.filter_cons, hp1, Bool.false_eq_true,
      if_false]
    cases hp2 : isMetadataFileName k with
    | false => simp [hp2]
    | true => simp [hp2, List.filterMap_cons, jsonParse]

/-- Witness for `c10_json_filter_and_json_key_invisible`: a listable
record drawn from a metadata-named file, and a save under the key
`"a.json"` that is invisible to `loadSavedImages`. -/
theorem c10_witness :
    (∃ name,
        (name, FileContent.metadataJson
          ⟨⟨"u", 1, 1, none, 7, none, none⟩, "p", 9⟩)
          ∈ [("m.json", FileContent.metadataJson
              ⟨⟨"u", 1, 1, none, 7, none, none⟩, "p", 9⟩)]
        ∧ isMetadataFileName name = true)
    ∧ loadSavedImages (saveImageWithMetadata []
        ⟨"file:///cache/a.jpg", 1, 1, none, 0, none, none⟩ "a.json" 0 5).1
      = loadSavedImages [] := by
  constructor
  · apply c10_json_filter_and_json_key_invisible.1
    have hone : loadSavedImages
        [("m.json", FileContent.metadataJson
          ⟨⟨"u", 1, 1, none, 7, none, none⟩, "p", 9⟩)]
        = [⟨⟨"u", 1, 1, none, 7, none, none⟩, "p", 9⟩] := by
      simp only [loadSavedImages]
      rw [show List.filterMap
            (fun file => jsonParse file.2)
            (List.filter (fun file => isMetadataFileName file.1)
              [("m.json", FileContent.metadataJson
                ⟨⟨"u", 1, 1, none, 7, none, none⟩, "p", 9⟩)])
          = [⟨⟨"u", 1, 1, none, 7, none, none⟩, "p", 9⟩] from by decide]
      rw [List.mergeSort_singleton]
    rw [hone]
    simp
  · exact c10_json_filter_and_json_key_invisible.2 []
      ⟨"file:///cache/a.jpg", 1, 1, none, 0, none, none⟩ "a.json" 0 5
      (by decide) rfl rfl

end GeoTagging
